import Mathlib

/-!
Verification of the Liquidity Party swap encoder
(`src/encoding/evm/swap_encoder/liquidity_party.rs`).

The encoder translates one swap through a Liquidity Party pool into the
63-byte packed calldata layout consumed by the on-chain executor contract:
pool address (20) ‖ input token address (20) ‖ input token index (1) ‖
output token index (1) ‖ receiver address (20) ‖ transfer-type value (1).

Byte strings are modelled as `List Nat`; machine narrowing (`usize as u8`)
is explicit `% 256`.
-/

namespace LiquidityParty

/-- `tycho_common::Bytes` — an arbitrary-length byte string. -/
abbrev Bytes := List Nat

/-- `tycho_common::models::Address` is an alias of `Bytes`. -/
abbrev Address := Bytes

/-- `crate::encoding::errors::EncodingError` — the single fatal error kind
carrying a human-readable message. -/
inductive EncodingError where
  | FatalError : String → EncodingError
deriving DecidableEq, Repr

/-- The part of `tycho_common::models::protocol::ProtocolComponent` the
encoder reads: the component identifier string and the ordered pool token
list. -/
structure ProtocolComponent where
  id : String
  tokens : List Address
deriving DecidableEq, Repr

/-- `crate::encoding::models::Swap` — the fields the encoder reads:
the pool component, the input token address and the output token address. -/
structure Swap where
  component : ProtocolComponent
  token_in : Bytes
  token_out : Bytes
deriving DecidableEq, Repr

/-- `crate::encoding::models::EncodingContext`.  The transfer-type
enumeration is represented by its small-integer value (`as u8` on the wire);
the routing fields (`router_address`, `exact_out`, group tokens,
`historical_trade`) are carried but unused by this encoder variant. -/
structure EncodingContext where
  receiver : Bytes
  exact_out : Bool
  router_address : Option Bytes
  group_token_in : Bytes
  group_token_out : Bytes
  transfer_type : Nat
  historical_trade : Bool
deriving DecidableEq, Repr

/-- Modelled from the spec: `tycho_common::models::Chain` is chain metadata,
out of scope beyond its shape; the encoder ignores it entirely. -/
structure Chain where
  id : Nat
deriving DecidableEq, Repr

/-- Modelled from the spec: the transfer-type enumeration value `Transfer`
is the small integer 1 (spec §8, concrete scenario). -/
def TransferType.Transfer : Nat := 1

/-- `LiquidityPartySwapEncoder` — one field, the executor contract
address, set at construction and never changed. -/
structure LiquidityPartySwapEncoder where
  executor_address : Bytes
deriving DecidableEq, Repr

/-- Value of a hexadecimal digit character, `none` on a non-hex character. -/
def hexDigit? (c : Char) : Option Nat :=
  if '0' ≤ c ∧ c ≤ '9' then some (c.toNat - '0'.toNat)
  else if 'a' ≤ c ∧ c ≤ 'f' then some (c.toNat - 'a'.toNat + 10)
  else if 'A' ≤ c ∧ c ≤ 'F' then some (c.toNat - 'A'.toNat + 10)
  else none

/-- Decode a hex character sequence two digits per byte; `none` on an odd
length or a non-hex character. -/
def hexPairs? : List Char → Option (List Nat)
  | [] => some []
  | [_] => none
  | c1 :: c2 :: rest =>
    match hexDigit? c1, hexDigit? c2, hexPairs? rest with
    | some hi, some lo, some tail => some ((16 * hi + lo) :: tail)
    | _, _, _ => none

/-- Modelled from the spec: `Address::from_str` (tycho_common, not under
src/).  Spec §4.2 step 1: parse the component identifier as an address,
failing when it is not syntactically valid (wrong length or non-hex
characters).  An optional `0x` prefix is accepted, then exactly 40 hex
digits decoding to 20 bytes. -/
def Address.from_str (s : String) : Option Address :=
  let cs := s.data
  let cs := if cs.take 2 = ['0', 'x'] then cs.drop 2 else cs
  if cs.length = 40 then hexPairs? cs else none

/-- Modelled from the spec: `bytes_to_address`
(`crate::encoding::evm::utils`, not under src/) converts a byte string to
the 20-byte address used by the packed layout, failing when the length is
not 20. -/
def bytes_to_address (b : Bytes) : Except EncodingError Address :=
  if b.length = 20 then .ok b else .error (.FatalError "Invalid address")

/-- `Iterator::position`: index of the first element equal to `t`. -/
def positionOf : List Address → Bytes → Option Nat
  | [], _ => none
  | a :: rest, t => if a = t then some 0 else (positionOf rest t).map (· + 1)

/-- `LiquidityPartySwapEncoder::get_token_indexes` (source lines 22–42):
first positions of the input and output token in the pool's token list,
each narrowed to one byte (`as u8`, i.e. `% 256`), together with a copy of
the input token address; fatal error naming the missing side otherwise. -/
def get_token_indexes (swap : Swap) :
    Except EncodingError (Bytes × Nat × Nat) :=
  match positionOf swap.component.tokens swap.token_in with
  | none => .error (.FatalError "Token in not found in pool tokens")
  | some token_in_idx =>
    match positionOf swap.component.tokens swap.token_out with
    | none => .error (.FatalError "Token out not found in pool tokens")
    | some token_out_idx =>
      .ok (swap.token_in, token_in_idx % 256, token_out_idx % 256)

/-- `SwapEncoder::new` for `LiquidityPartySwapEncoder` (source lines
46–52): stores the executor address, ignoring the chain and the optional
configuration map. -/
def new (executor_address : Bytes) (_chain : Chain)
    (_config : Option (List (String × String))) :
    Except EncodingError LiquidityPartySwapEncoder :=
  .ok { executor_address := executor_address }

/-- `LiquidityPartySwapEncoder::encode_swap` (source lines 54–74): parse
the component id as the pool address, resolve the token indexes, then
`abi_encode_packed` the tuple (pool address, input token address, input
index byte, output index byte, receiver address, transfer-type byte) —
plain concatenation of the fixed-width fields. -/
def encode_swap (_self : LiquidityPartySwapEncoder) (swap : Swap)
    (encoding_context : EncodingContext) :
    Except EncodingError (List Nat) :=
  match Address.from_str swap.component.id with
  | none => .error (.FatalError "LiqP swap encoder: invalid component id")
  | some pool_addr =>
    match get_token_indexes swap with
    | .error e => .error e
    | .ok (token_in, token_in_idx, token_out_idx) =>
      match bytes_to_address pool_addr with
      | .error e => .error e
      | .ok pa =>
        match bytes_to_address token_in with
        | .error e => .error e
        | .ok ta =>
          match bytes_to_address encoding_context.receiver with
          | .error e => .error e
          | .ok ra =>
            .ok (pa ++ ta ++ [token_in_idx] ++ [token_out_idx] ++ ra ++
              [encoding_context.transfer_type % 256])

/-- `SwapEncoder::executor_address` (source lines 76–78). -/
def executor_address (e : LiquidityPartySwapEncoder) : Bytes :=
  e.executor_address

/-- `SwapEncoder::clone_box` (source lines 80–82): the derived `Clone` is
a field-wise copy, yielding an independent instance with the same state. -/
def clone_box (e : LiquidityPartySwapEncoder) : LiquidityPartySwapEncoder :=
  e

/-- Lowercase hex digit character of a value below 16. -/
def hexChar (n : Nat) : Char :=
  if n < 10 then Char.ofNat (48 + n) else Char.ofNat (97 + (n - 10))

/-- Render a byte string as lowercase hex text without a `0x` prefix
(`alloy::hex::encode`). -/
def toHex (bs : List Nat) : String :=
  String.mk (List.flatten (bs.map (fun b => [hexChar (b / 16), hexChar (b % 16)])))

/-! ### Concrete fixtures (from the source's `test_encode_liquidityparty`) -/

/-- `Address::from("0x…")` on a literal: hex-decode, empty on failure. -/
def addrOf (s : String) : Bytes := (Address.from_str s).getD []

def USDC : Bytes := addrOf "0xA0b86991c6218b36c1d19D4a2e9Eb0cE3606eB48"

def WSOL : Bytes := addrOf "0xD31a59c85aE9D8edEFeC411D448f90841571b89c"

def BOB : Bytes := addrOf "0x1D96F2f6BeF1202E4Ce1Ff6Dad0c2CB002861d3e"

/-- The decoded bytes of the test pool's component id. -/
def poolAddrBytes : Bytes := addrOf "0xfA0be6148F66A6499666cf790d647D00daB76904"

/-- The ten pool tokens of the mainnet test pool. -/
def testTokens : List Address :=
  [addrOf "0xdAC17F958D2ee523a2206206994597C13D831ec7",
   USDC,
   addrOf "0x2260FAC5E5542a773Aa44fBCfeDf7C193bc2C599",
   addrOf "0xC02aaA39b223FE8D0A0e5C4F27eAD9083C756Cc2",
   addrOf "0x1f9840a85d5aF5bf1D1762F925BDADdC4201F984",
   WSOL,
   addrOf "0x50327c6c5a14DCaDE707ABad2E27eB517df87AB5",
   addrOf "0x7Fc66500c84A76Ad7e9c93437bFc5Ac33E2DDaE9",
   addrOf "0x6982508145454Ce325dDbE47a25d4ec3d2311933",
   addrOf "0x95aD61b0a150d79219dCF64E1E6Cc01f0B64C4cE"]

def testSwap : Swap :=
  { component :=
      { id := "0xfA0be6148F66A6499666cf790d647D00daB76904",
        tokens := testTokens },
    token_in := USDC,
    token_out := WSOL }

def testCtx : EncodingContext :=
  { receiver := BOB,
    exact_out := false,
    router_address := some (List.replicate 20 0),
    group_token_in := USDC,
    group_token_out := WSOL,
    transfer_type := TransferType.Transfer,
    historical_trade := false }

def testEncoder : LiquidityPartySwapEncoder :=
  { executor_address := addrOf "0x543778987b293C7E8Cf0722BB2e935ba6f4068D4" }

/-- Expected packed output of the source's test vector. -/
def testOut : List Nat := poolAddrBytes ++ USDC ++ [1] ++ [5] ++ BOB ++ [1]

/-- `testSwap` with the component id rendered in lowercase — a distinct id
string parsing to the same pool address. -/
def aliasSwap : Swap :=
  { testSwap with
    component :=
      { id := "0xfa0be6148f66a6499666cf790d647d00dab76904",
        tokens := testTokens } }

/-- A swap whose component id is not a syntactically valid address and
whose tokens are both absent from the (empty) pool token list. -/
def badIdSwap : Swap :=
  { component := { id := "not-an-address", tokens := [] },
    token_in := USDC,
    token_out := WSOL }

/-- A swap with a valid component id whose input and output tokens are
both absent from the pool token list. -/
def missBothSwap : Swap :=
  { component := testSwap.component,
    token_in := List.replicate 20 170,
    token_out := List.replicate 20 187 }

/-- A swap with a valid component id whose input token is absent from the
pool token list but whose output token is present. -/
def missInSwap : Swap :=
  { component := testSwap.component,
    token_in := List.replicate 20 170,
    token_out := WSOL }

/-! ### A pool with 257 tokens (index narrowing overflow) -/

/-- The `i`-th distinct 20-byte token address of the large pool. -/
def bigToken (i : Nat) : Bytes := i % 256 :: i / 256 :: List.replicate 18 0

/-- A 257-entry pool token list of pairwise distinct addresses. -/
def bigTokens : List Address := (List.range 257).map bigToken

def bigComponent : ProtocolComponent :=
  { id := "0xfA0be6148F66A6499666cf790d647D00daB76904",
    tokens := bigTokens }

def bigCtx : EncodingContext :=
  { receiver := BOB,
    exact_out := false,
    router_address := some (List.replicate 20 0),
    group_token_in := bigToken 1,
    group_token_out := bigToken 0,
    transfer_type := TransferType.Transfer,
    historical_trade := false }

/-- Input token at position 256 of the large pool. -/
def bigSwapIn256 : Swap :=
  { component := bigComponent, token_in := bigToken 256, token_out := bigToken 0 }

/-- Output token at position 0 of the large pool. -/
def bigSwapOut0 : Swap :=
  { component := bigComponent, token_in := bigToken 1, token_out := bigToken 0 }

/-- Output token at position 256 of the large pool. -/
def bigSwapOut256 : Swap :=
  { component := bigComponent, token_in := bigToken 1, token_out := bigToken 256 }

instance {e a : Type} [DecidableEq e] [DecidableEq a] :
    DecidableEq (Except e a)
  | .ok x, .ok y =>
    if h : x = y then .isTrue (by rw [h])
    else .isFalse (fun hc => by cases hc; exact h rfl)
  | .error x, .error y =>
    if h : x = y then .isTrue (by rw [h])
    else .isFalse (fun hc => by cases hc; exact h rfl)
  | .ok _, .error _ => .isFalse (fun hc => by cases hc)
  | .error _, .ok _ => .isFalse (fun hc => by cases hc)

/-! ### Basic lemmas -/

theorem hexPairs?_length :
    ∀ (cs : List Char) (bs : List Nat), hexPairs? cs = some bs →
      cs.length = 2 * bs.length
  | [], bs, h => by
    simp only [hexPairs?, Option.some_inj] at h
    subst h; rfl
  | [_], bs, h => by simp [hexPairs?] at h
  | c1 :: c2 :: rest, bs, h => by
    simp only [hexPairs?] at h
    cases h1 : hexDigit? c1 with
    | none => rw [h1] at h; exact absurd h (by simp)
    | some hi =>
      cases h2 : hexDigit? c2 with
      | none => rw [h1, h2] at h; exact absurd h (by simp)
      | some lo =>
        cases h3 : hexPairs? rest with
        | none => rw [h1, h2, h3] at h; exact absurd h (by simp)
        | some tail =>
          rw [h1, h2, h3] at h
          simp only [Option.some_inj] at h
          subst h
          have ih := hexPairs?_length rest tail h3
          simp only [List.length_cons, ih]
          ring

theorem from_str_length {s : String} {a : Address}
    (h : Address.from_str s = some a) : a.length = 20 := by
  unfold Address.from_str at h
  set cs := if s.data.take 2 = ['0', 'x'] then s.data.drop 2 else s.data with hcs
  by_cases hlen : cs.length = 40
  · rw [if_pos hlen] at h
    have := hexPairs?_length cs a h
    omega
  · rw [if_neg hlen] at h
    exact absurd h (by simp)

theorem positionOf_lt_length {l : List Address} {t : Bytes} {i : Nat}
    (h : positionOf l t = some i) : i < l.length := by
  induction l generalizing i with
  | nil => simp [positionOf] at h
  | cons a rest ih =>
    simp only [positionOf] at h
    by_cases ha : a = t
    · rw [if_pos ha] at h
      simp only [Option.some_inj] at h
      subst h; simp
    · rw [if_neg ha] at h
      cases hr : positionOf rest t with
      | none => rw [hr] at h; exact absurd h (by simp)
      | some j =>
        rw [hr] at h
        simp at h
        subst h
        have := ih hr
        simp only [List.length_cons]
        omega

theorem positionOf_get? {l : List Address} {t : Bytes} {i : Nat}
    (h : positionOf l t = some i) : l.get? i = some t := by
  induction l generalizing i with
  | nil => simp [positionOf] at h
  | cons a rest ih =>
    simp only [positionOf] at h
    by_cases ha : a = t
    · rw [if_pos ha] at h
      simp only [Option.some_inj] at h
      subst h; simp [ha]
    · rw [if_neg ha] at h
      cases hr : positionOf rest t with
      | none => rw [hr] at h; exact absurd h (by simp)
      | some j =>
        rw [hr] at h
        simp at h
        subst h
        simpa using ih hr

theorem positionOf_eq_none_iff {l : List Address} {t : Bytes} :
    positionOf l t = none ↔ t ∉ l := by
  induction l with
  | nil => simp [positionOf]
  | cons a rest ih =>
    simp only [positionOf, List.mem_cons]
    by_cases ha : a = t
    · simp [ha]
    · rw [if_neg ha]
      cases hr : positionOf rest t with
      | none =>
        simp only [Option.map]
        constructor
        · intro _ hmem
          rcases hmem with h | h
          · exact ha h.symm
          · exact (ih.mp hr) h
        · intro _; trivial
      | some j =>
        simp only [Option.map]
        constructor
        · intro h; exact absurd h (by simp)
        · intro hmem
          exfalso
          apply hmem
          right
          by_contra hnot
          rw [ih.mpr hnot] at hr
          exact absurd hr (by simp)

theorem positionOf_isSome_of_mem {l : List Address} {t : Bytes}
    (h : t ∈ l) : ∃ i, positionOf l t = some i := by
  cases hp : positionOf l t with
  | none => exact absurd (positionOf_eq_none_iff.mp hp) (by simp [h])
  | some i => exact ⟨i, rfl⟩

/-! ### Characterization of `encode_swap` -/

theorem encode_swap_ok (e : LiquidityPartySwapEncoder) (swap : Swap)
    (ctx : EncodingContext) {pa : Address} {i j : Nat}
    (hpa : Address.from_str swap.component.id = some pa)
    (hi : positionOf swap.component.tokens swap.token_in = some i)
    (hj : positionOf swap.component.tokens swap.token_out = some j)
    (hlin : swap.token_in.length = 20)
    (hlr : ctx.receiver.length = 20) :
    encode_swap e swap ctx =
      .ok (pa ++ swap.token_in ++ [i % 256] ++ [j % 256] ++ ctx.receiver ++
        [ctx.transfer_type % 256]) := by
  have hpa20 : pa.length = 20 := from_str_length hpa
  unfold encode_swap get_token_indexes
  rw [hpa, hi, hj]
  simp [bytes_to_address, hpa20, hlin, hlr]

theorem encode_swap_invalid_id (e : LiquidityPartySwapEncoder) (swap : Swap)
    (ctx : EncodingContext)
    (h : Address.from_str swap.component.id = none) :
    encode_swap e swap ctx =
      .error (.FatalError "LiqP swap encoder: invalid component id") := by
  unfold encode_swap
  rw [h]

theorem encode_swap_token_in_missing (e : LiquidityPartySwapEncoder)
    (swap : Swap) (ctx : EncodingContext) {pa : Address}
    (hpa : Address.from_str swap.component.id = some pa)
    (h : positionOf swap.component.tokens swap.token_in = none) :
    encode_swap e swap ctx =
      .error (.FatalError "Token in not found in pool tokens") := by
  unfold encode_swap get_token_indexes
  rw [hpa, h]

theorem encode_swap_token_out_missing (e : LiquidityPartySwapEncoder)
    (swap : Swap) (ctx : EncodingContext) {pa : Address} {i : Nat}
    (hpa : Address.from_str swap.component.id = some pa)
    (hi : positionOf swap.component.tokens swap.token_in = some i)
    (hj : positionOf swap.component.tokens swap.token_out = none) :
    encode_swap e swap ctx =
      .error (.FatalError "Token out not found in pool tokens") := by
  unfold encode_swap get_token_indexes
  rw [hpa, hi, hj]

/-- Field extraction from the packed layout
`pool ‖ token_in ‖ idx_in ‖ idx_out ‖ receiver ‖ transfer_type`. -/
theorem packed_layout (pa tin recv : List Nat) (a b c : Nat)
    (h1 : pa.length = 20) (h2 : tin.length = 20) (h3 : recv.length = 20) :
    (pa ++ tin ++ [a] ++ [b] ++ recv ++ [c]).length = 63 ∧
    (pa ++ tin ++ [a] ++ [b] ++ recv ++ [c]).take 20 = pa ∧
    ((pa ++ tin ++ [a] ++ [b] ++ recv ++ [c]).drop 20).take 20 = tin ∧
    (pa ++ tin ++ [a] ++ [b] ++ recv ++ [c])[40]? = some a ∧
    (pa ++ tin ++ [a] ++ [b] ++ recv ++ [c])[41]? = some b ∧
    ((pa ++ tin ++ [a] ++ [b] ++ recv ++ [c]).drop 42).take 20 = recv ∧
    (pa ++ tin ++ [a] ++ [b] ++ recv ++ [c])[62]? = some c := by
  have hA : pa ++ tin ++ [a] ++ [b] ++ recv ++ [c] =
      pa ++ (tin ++ (a :: b :: (recv ++ [c]))) := by simp
  have hB : pa ++ tin ++ [a] ++ [b] ++ recv ++ [c] =
      (pa ++ tin) ++ (a :: b :: (recv ++ [c])) := by simp
  have hC : pa ++ tin ++ [a] ++ [b] ++ recv ++ [c] =
      (pa ++ tin ++ [a] ++ [b]) ++ (recv ++ [c]) := by simp
  have hD : pa ++ tin ++ [a] ++ [b] ++ recv ++ [c] =
      (pa ++ tin ++ [a] ++ [b] ++ recv) ++ [c] := by simp
  have hlB : (pa ++ tin).length = 40 := by simp [h1, h2]
  have hlC : (pa ++ tin ++ [a] ++ [b]).length = 42 := by simp [h1, h2]
  have hlD : (pa ++ tin ++ [a] ++ [b] ++ recv).length = 62 := by
    simp [h1, h2, h3]
  refine ⟨by simp [h1, h2, h3], ?_, ?_, ?_, ?_, ?_, ?_⟩
  · rw [hA]; exact List.take_left' h1
  · rw [hA, List.drop_left' h1]; exact List.take_left' h2
  · rw [hB, List.getElem?_append_right (by omega), hlB]; simp
  · rw [hB, List.getElem?_append_right (by omega), hlB]; simp
  · rw [hC, List.drop_left' hlC]; exact List.take_left' h3
  · rw [hD, List.getElem?_append_right (by omega), hlD]; simp

theorem encode_swap_ok_inv {e : LiquidityPartySwapEncoder} {swap : Swap}
    {ctx : EncodingContext} {out : List Nat}
    (h : encode_swap e swap ctx = .ok out) :
    ∃ pa i j, Address.from_str swap.component.id = some pa ∧
      positionOf swap.component.tokens swap.token_in = some i ∧
      positionOf swap.component.tokens swap.token_out = some j ∧
      pa.length = 20 ∧ swap.token_in.length = 20 ∧ ctx.receiver.length = 20 ∧
      out = pa ++ swap.token_in ++ [i % 256] ++ [j % 256] ++ ctx.receiver ++
        [ctx.transfer_type % 256] := by
  unfold encode_swap get_token_indexes at h
  cases hpa : Address.from_str swap.component.id with
  | none => rw [hpa] at h; exact absurd h (by simp)
  | some pa =>
    rw [hpa] at h
    cases hi : positionOf swap.component.tokens swap.token_in with
    | none => rw [hi] at h; exact absurd h (by simp)
    | some i =>
      rw [hi] at h
      cases hj : positionOf swap.component.tokens swap.token_out with
      | none => rw [hj] at h; exact absurd h (by simp)
      | some j =>
        rw [hj] at h
        by_cases h1 : pa.length = 20
        · by_cases h2 : swap.token_in.length = 20
          · by_cases h3 : ctx.receiver.length = 20
            · simp only [bytes_to_address, h1, h2, h3, if_true,
                Except.ok.injEq] at h
              exact ⟨pa, i, j, rfl, rfl, rfl, h1, h2, h3, h.symm⟩
            · simp [bytes_to_address, h1, h2, h3] at h
          · simp [bytes_to_address, h1, h2] at h
        · simp [bytes_to_address, h1] at h

/-! ### Claim theorems -/

/-- **C4**: Construction succeeds for every executor address, every chain
and every configuration map (including an empty and an absent map), and
the configuration never changes behavior: two instances built from the
same executor address but different chains/configurations have identical
`executor_address` results and identical `encode_swap` results on every
input. -/
theorem C4_construction_total_config_irrelevant (a : Bytes)
    (ch1 ch2 : Chain) (cfg1 cfg2 : Option (List (String × String))) :
    ∃ e1 e2, new a ch1 cfg1 = .ok e1 ∧ new a ch2 cfg2 = .ok e2 ∧
      executor_address e1 = executor_address e2 ∧
      ∀ (s : Swap) (c : EncodingContext),
        encode_swap e1 s c = encode_swap e2 s c :=
  ⟨⟨a⟩, ⟨a⟩, rfl, rfl, rfl, fun _ _ => rfl⟩

/-- **C5**: `encode_swap` is a pure, deterministic function of its two
inputs: on instances with equal state it returns equal results for any
swap and encoding context, with no dependence on hidden mutable state. -/
theorem C5_encode_swap_deterministic
    (e1 e2 : LiquidityPartySwapEncoder)
    (_h : executor_address e1 = executor_address e2)
    (s : Swap) (c : EncodingContext) :
    encode_swap e1 s c = encode_swap e2 s c := rfl

/-- Witness for C5 at concrete instances. -/
theorem C5_encode_swap_deterministic_witness :
    executor_address testEncoder = executor_address (clone_box testEncoder) ∧
    encode_swap testEncoder testSwap testCtx =
      encode_swap (clone_box testEncoder) testSwap testCtx :=
  ⟨rfl, C5_encode_swap_deterministic testEncoder (clone_box testEncoder)
    rfl testSwap testCtx⟩

/-- **C7**: `executor_address` on an instance constructed from an address
returns exactly that address, and no operation (here: `clone_box`, the
only one touching instance state) changes the stored executor address. -/
theorem C7_executor_address_stable (a : Bytes) (ch : Chain)
    (cfg : Option (List (String × String))) :
    (new a ch cfg).map executor_address = .ok a ∧
    ∀ e : LiquidityPartySwapEncoder,
      executor_address (clone_box e) = executor_address e :=
  ⟨rfl, fun _ => rfl⟩

/-- **C8**: `clone_box` produces an instance whose executor address equals
the original's and whose `encode_swap` results equal the original's on
every input. -/
theorem C8_clone_box_equivalent (e : LiquidityPartySwapEncoder) :
    executor_address (clone_box e) = executor_address e ∧
    ∀ (s : Swap) (c : EncodingContext),
      encode_swap (clone_box e) s c = encode_swap e s c :=
  ⟨rfl, fun _ _ => rfl⟩

set_option maxRecDepth 10000 in
/-- **C9**: Concrete scenario from the source's test: pool with the
10-token list, input token at position 1 (USDC), output token at
position 5 (WSOL), receiver BOB, transfer type `Transfer` (value 1) —
the output is pool ‖ USDC ‖ 0x01 ‖ 0x05 ‖ BOB ‖ 0x01, rendered as
lowercase hex without a `0x` prefix, 126 hex characters in total. -/
theorem C9_concrete_scenario :
    encode_swap testEncoder testSwap testCtx = .ok testOut ∧
    testOut = poolAddrBytes ++ USDC ++ [1] ++ [5] ++ BOB ++ [1] ∧
    positionOf testTokens USDC = some 1 ∧
    positionOf testTokens WSOL = some 5 ∧
    testCtx.transfer_type = 1 ∧
    toHex testOut =
      "fa0be6148f66a6499666cf790d647d00dab76904a0b86991c6218b36c1d19d4a2e9eb0ce3606eb4801051d96f2f6bef1202e4ce1ff6dad0c2cb002861d3e01" ∧
    (toHex testOut).length = 126 := by
  refine ⟨by decide, by decide, by decide, by decide, rfl, ?_, ?_⟩
  · decide
  · decide

/-- **C10**: Error precedence is fixed: an unparsable component id is
reported before any missing-token error (whatever the token lists hold),
and a missing input token is reported before a missing output token
(whether or not the output token is present). -/
theorem C10_error_precedence (e : LiquidityPartySwapEncoder) (swap : Swap)
    (ctx : EncodingContext) :
    (Address.from_str swap.component.id = none →
      encode_swap e swap ctx =
        .error (.FatalError "LiqP swap encoder: invalid component id")) ∧
    (∀ pa, Address.from_str swap.component.id = some pa →
      swap.token_in ∉ swap.component.tokens →
      encode_swap e swap ctx =
        .error (.FatalError "Token in not found in pool tokens")) := by
  constructor
  · exact encode_swap_invalid_id e swap ctx
  · intro pa hpa hin
    exact encode_swap_token_in_missing e swap ctx hpa
      (positionOf_eq_none_iff.mpr hin)

/-- Witness for C10: a swap with an invalid component id and both tokens
absent yields the invalid-component-id error; a swap with a valid id and
both tokens absent yields the missing-input-token error. -/
theorem C10_error_precedence_witness :
    (Address.from_str badIdSwap.component.id = none ∧
     badIdSwap.token_in ∉ badIdSwap.component.tokens ∧
     badIdSwap.token_out ∉ badIdSwap.component.tokens ∧
     encode_swap testEncoder badIdSwap testCtx =
       .error (.FatalError "LiqP swap encoder: invalid component id")) ∧
    (Address.from_str missBothSwap.component.id = some poolAddrBytes ∧
     missBothSwap.token_in ∉ missBothSwap.component.tokens ∧
     missBothSwap.token_out ∉ missBothSwap.component.tokens ∧
     encode_swap testEncoder missBothSwap testCtx =
       .error (.FatalError "Token in not found in pool tokens")) :=
  ⟨⟨by decide, by decide, by decide,
    (C10_error_precedence testEncoder badIdSwap testCtx).1 (by decide)⟩,
   ⟨by decide, by decide, by decide,
    (C10_error_precedence testEncoder missBothSwap testCtx).2 poolAddrBytes
      (by decide) (by decide)⟩⟩

set_option maxRecDepth 10000 in
/-- **C1** counterexample: in a pool whose token list has 257 entries, a
swap whose input token first occurs at position 256 encodes successfully,
but byte 40 of the output is 0 — the position narrowed modulo 256 — not
the first position 256 the claim states. -/
theorem C1_counterexample :
    positionOf bigSwapIn256.component.tokens bigSwapIn256.token_in =
      some 256 ∧
    (encode_swap testEncoder bigSwapIn256 bigCtx).map (fun out => out[40]?) =
      .ok (some 0) ∧
    (0 : Nat) ≠ 256 := by
  refine ⟨by decide, by decide, by decide⟩

/-- **C1** (amended): for every swap whose pool component identifier
parses as an address and whose input and output token addresses (20-byte
addresses) both occur in the pool's token list, `encode_swap` returns a
63-byte sequence in this exact order with no padding: bytes 0–19 the pool
address, bytes 20–39 the input token address, byte 40 the first position
of the input token *reduced modulo 256*, byte 41 the first position of
the output token *reduced modulo 256*, bytes 42–61 the context receiver
address, byte 62 the transfer-type value (reduced modulo 256). -/
theorem C1_packed_layout (e : LiquidityPartySwapEncoder) (swap : Swap)
    (ctx : EncodingContext) {pa : Address} {i j : Nat}
    (hpa : Address.from_str swap.component.id = some pa)
    (hi : positionOf swap.component.tokens swap.token_in = some i)
    (hj : positionOf swap.component.tokens swap.token_out = some j)
    (hlin : swap.token_in.length = 20)
    (hlr : ctx.receiver.length = 20) :
    encode_swap e swap ctx =
      .ok (pa ++ swap.token_in ++ [i % 256] ++ [j % 256] ++ ctx.receiver ++
        [ctx.transfer_type % 256]) ∧
    (pa ++ swap.token_in ++ [i % 256] ++ [j % 256] ++ ctx.receiver ++
      [ctx.transfer_type % 256]).length = 63 ∧
    (pa ++ swap.token_in ++ [i % 256] ++ [j % 256] ++ ctx.receiver ++
      [ctx.transfer_type % 256]).take 20 = pa ∧
    ((pa ++ swap.token_in ++ [i % 256] ++ [j % 256] ++ ctx.receiver ++
      [ctx.transfer_type % 256]).drop 20).take 20 = swap.token_in ∧
    (pa ++ swap.token_in ++ [i % 256] ++ [j % 256] ++ ctx.receiver ++
      [ctx.transfer_type % 256])[40]? = some (i % 256) ∧
    (pa ++ swap.token_in ++ [i % 256] ++ [j % 256] ++ ctx.receiver ++
      [ctx.transfer_type % 256])[41]? = some (j % 256) ∧
    ((pa ++ swap.token_in ++ [i % 256] ++ [j % 256] ++ ctx.receiver ++
      [ctx.transfer_type % 256]).drop 42).take 20 = ctx.receiver ∧
    (pa ++ swap.token_in ++ [i % 256] ++ [j % 256] ++ ctx.receiver ++
      [ctx.transfer_type % 256])[62]? = some (ctx.transfer_type % 256) :=
  ⟨encode_swap_ok e swap ctx hpa hi hj hlin hlr,
   packed_layout pa swap.token_in ctx.receiver (i % 256) (j % 256)
     (ctx.transfer_type % 256) (from_str_length hpa) hlin hlr⟩

/-- Witness for C1 at the source's test vector (positions 1 and 5). -/
theorem C1_packed_layout_witness :
    (Address.from_str testSwap.component.id = some poolAddrBytes ∧
     positionOf testSwap.component.tokens testSwap.token_in = some 1 ∧
     positionOf testSwap.component.tokens testSwap.token_out = some 5 ∧
     testSwap.token_in.length = 20 ∧
     testCtx.receiver.length = 20) ∧
    encode_swap testEncoder testSwap testCtx = .ok testOut :=
  ⟨⟨by decide, by decide, by decide, by decide, by decide⟩,
   (C1_packed_layout testEncoder testSwap testCtx
     (by decide : Address.from_str testSwap.component.id = some poolAddrBytes)
     (by decide :
       positionOf testSwap.component.tokens testSwap.token_in = some 1)
     (by decide :
       positionOf testSwap.component.tokens testSwap.token_out = some 5)
     (by decide) (by decide)).1⟩

/-- **C2**: `encode_swap` returns a fatal encoding error if and only if
the component identifier does not parse as an address, the input token is
absent from the pool token list, or the output token is absent; a missing
token yields the error message naming its side, and on every error no
byte output is produced.  (Token and receiver byte strings are assumed to
be 20-byte addresses, as the spec's data model prescribes.) -/
theorem C2_error_iff (e : LiquidityPartySwapEncoder) (swap : Swap)
    (ctx : EncodingContext)
    (hlin : swap.token_in ∈ swap.component.tokens →
      swap.token_in.length = 20)
    (hlr : ctx.receiver.length = 20) :
    ((∃ msg, encode_swap e swap ctx = .error (.FatalError msg)) ↔
      (Address.from_str swap.component.id = none ∨
       swap.token_in ∉ swap.component.tokens ∨
       swap.token_out ∉ swap.component.tokens)) ∧
    (∀ msg, encode_swap e swap ctx = .error (.FatalError msg) →
      ∀ out, encode_swap e swap ctx ≠ .ok out) ∧
    (∀ pa, Address.from_str swap.component.id = some pa →
      swap.token_in ∉ swap.component.tokens →
      encode_swap e swap ctx =
        .error (.FatalError "Token in not found in pool tokens")) ∧
    (∀ pa, Address.from_str swap.component.id = some pa →
      swap.token_in ∈ swap.component.tokens →
      swap.token_out ∉ swap.component.tokens →
      encode_swap e swap ctx =
        .error (.FatalError "Token out not found in pool tokens")) := by
  refine ⟨⟨?_, ?_⟩, ?_, ?_, ?_⟩
  · rintro ⟨msg, herr⟩
    by_contra hnone
    push_neg at hnone
    obtain ⟨hid, hin, hout⟩ := hnone
    obtain ⟨pa, hpa⟩ := Option.ne_none_iff_exists'.mp hid
    obtain ⟨i, hi⟩ := positionOf_isSome_of_mem hin
    obtain ⟨j, hj⟩ := positionOf_isSome_of_mem hout
    rw [encode_swap_ok e swap ctx hpa hi hj (hlin hin) hlr] at herr
    exact absurd herr (by simp)
  · intro hcond
    rcases hcond with hid | hin | hout
    · exact ⟨_, encode_swap_invalid_id e swap ctx hid⟩
    · cases hpa : Address.from_str swap.component.id with
      | none => exact ⟨_, encode_swap_invalid_id e swap ctx hpa⟩
      | some pa =>
        exact ⟨_, encode_swap_token_in_missing e swap ctx hpa
          (positionOf_eq_none_iff.mpr hin)⟩
    · cases hpa : Address.from_str swap.component.id with
      | none => exact ⟨_, encode_swap_invalid_id e swap ctx hpa⟩
      | some pa =>
        cases hi : positionOf swap.component.tokens swap.token_in with
        | none =>
          exact ⟨_, encode_swap_token_in_missing e swap ctx hpa hi⟩
        | some i =>
          exact ⟨_, encode_swap_token_out_missing e swap ctx hpa hi
            (positionOf_eq_none_iff.mpr hout)⟩
  · intro msg herr out hok
    rw [herr] at hok
    exact absurd hok (by simp)
  · intro pa hpa hin
    exact encode_swap_token_in_missing e swap ctx hpa
      (positionOf_eq_none_iff.mpr hin)
  · intro pa hpa hin hout
    obtain ⟨i, hi⟩ := positionOf_isSome_of_mem hin
    exact encode_swap_token_out_missing e swap ctx hpa hi
      (positionOf_eq_none_iff.mpr hout)

/-- Witness for C2: a swap whose input token is absent yields exactly the
missing-input-token error. -/
theorem C2_error_iff_witness :
    ((missInSwap.token_in ∈ missInSwap.component.tokens →
      missInSwap.token_in.length = 20) ∧
     testCtx.receiver.length = 20) ∧
    encode_swap testEncoder missInSwap testCtx =
      .error (.FatalError "Token in not found in pool tokens") :=
  ⟨⟨by decide, by decide⟩,
   (C2_error_iff testEncoder missInSwap testCtx (by decide)
     (by decide)).2.2.1 poolAddrBytes (by decide) (by decide)⟩

/-- **C6**: for a swap whose input or output token first occurs at
position 256 or greater, `encode_swap` raises no overflow error: it
succeeds and the index bytes written are the positions reduced modulo 256
(silent truncation when narrowing to one byte). -/
theorem C6_index_truncation (e : LiquidityPartySwapEncoder) (swap : Swap)
    (ctx : EncodingContext) {pa : Address} {i j : Nat}
    (hpa : Address.from_str swap.component.id = some pa)
    (hi : positionOf swap.component.tokens swap.token_in = some i)
    (hj : positionOf swap.component.tokens swap.token_out = some j)
    (hlin : swap.token_in.length = 20)
    (hlr : ctx.receiver.length = 20)
    (_hbig : 256 ≤ i ∨ 256 ≤ j) :
    ∃ out, encode_swap e swap ctx = .ok out ∧
      out[40]? = some (i % 256) ∧ out[41]? = some (j % 256) := by
  refine ⟨_, encode_swap_ok e swap ctx hpa hi hj hlin hlr, ?_, ?_⟩
  · exact (packed_layout pa swap.token_in ctx.receiver (i % 256) (j % 256)
      (ctx.transfer_type % 256) (from_str_length hpa) hlin
      hlr).2.2.2.1
  · exact (packed_layout pa swap.token_in ctx.receiver (i % 256) (j % 256)
      (ctx.transfer_type % 256) (from_str_length hpa) hlin
      hlr).2.2.2.2.1

set_option maxRecDepth 10000 in
/-- Witness for C6: the 257-token pool with the input token at position
256; the encoded index bytes are 0. -/
theorem C6_index_truncation_witness :
    (Address.from_str bigSwapIn256.component.id = some poolAddrBytes ∧
     positionOf bigSwapIn256.component.tokens bigSwapIn256.token_in =
       some 256 ∧
     positionOf bigSwapIn256.component.tokens bigSwapIn256.token_out =
       some 0 ∧
     bigSwapIn256.token_in.length = 20 ∧
     bigCtx.receiver.length = 20 ∧
     256 ≤ 256) ∧
    (∃ out, encode_swap testEncoder bigSwapIn256 bigCtx = .ok out ∧
      out[40]? = some 0 ∧ out[41]? = some 0) :=
  ⟨⟨by decide, by decide, by decide, by decide, by decide, by decide⟩,
   C6_index_truncation testEncoder bigSwapIn256 bigCtx
     (by decide :
       Address.from_str bigSwapIn256.component.id = some poolAddrBytes)
     (by decide : positionOf bigSwapIn256.component.tokens
       bigSwapIn256.token_in = some 256)
     (by decide : positionOf bigSwapIn256.component.tokens
       bigSwapIn256.token_out = some 0)
     (by decide) (by decide) (Or.inl (by decide))⟩

set_option maxRecDepth 10000 in
/-- **C3** counterexample: over the same 257-entry pool token list, two
swaps that differ only in the output token (positions 0 and 256) both
encode successfully and yield identical byte sequences, because the
output index is narrowed modulo 256; moreover two swaps that differ only
in the component id string (upper- versus lower-case hex of the same
address) also yield identical byte sequences. -/
theorem C3_counterexample :
    (bigSwapOut0.token_out ≠ bigSwapOut256.token_out ∧
     (encode_swap testEncoder bigSwapOut0 bigCtx).isOk = true ∧
     encode_swap testEncoder bigSwapOut0 bigCtx =
       encode_swap testEncoder bigSwapOut256 bigCtx) ∧
    (aliasSwap.component.id ≠ testSwap.component.id ∧
     (encode_swap testEncoder aliasSwap testCtx).isOk = true ∧
     encode_swap testEncoder aliasSwap testCtx =
       encode_swap testEncoder testSwap testCtx) := by
  exact ⟨⟨by decide, by decide, by decide⟩, ⟨by decide, by decide, by decide⟩⟩

/-- **C3** (amended): encoding is injective within a fixed pool token
ordering once the pool is compared by its parsed address, the token list
has at most 256 entries and the transfer-type values are single-byte:
whenever two swaps over the same token list both encode successfully to
equal outputs, their parsed pool addresses, input tokens, output tokens,
receivers and transfer types all agree. -/
theorem C3_injective_bounded (e : LiquidityPartySwapEncoder)
    (s1 s2 : Swap) (c1 c2 : EncodingContext) (out1 out2 : List Nat)
    (htok : s1.component.tokens = s2.component.tokens)
    (hlen : s1.component.tokens.length ≤ 256)
    (ht1 : c1.transfer_type < 256) (ht2 : c2.transfer_type < 256)
    (h1 : encode_swap e s1 c1 = .ok out1)
    (h2 : encode_swap e s2 c2 = .ok out2)
    (heq : out1 = out2) :
    Address.from_str s1.component.id = Address.from_str s2.component.id ∧
    s1.token_in = s2.token_in ∧ s1.token_out = s2.token_out ∧
    c1.receiver = c2.receiver ∧ c1.transfer_type = c2.transfer_type := by
  obtain ⟨pa1, i1, j1, hpa1, hi1, hj1, hl1, hlin1, hlr1, hout1⟩ :=
    encode_swap_ok_inv h1
  obtain ⟨pa2, i2, j2, hpa2, hi2, hj2, hl2, hlin2, hlr2, hout2⟩ :=
    encode_swap_ok_inv h2
  have hbig : pa1 ++ (s1.token_in ++ ([i1 % 256] ++ ([j1 % 256] ++
      (c1.receiver ++ [c1.transfer_type % 256])))) =
      pa2 ++ (s2.token_in ++ ([i2 % 256] ++ ([j2 % 256] ++
      (c2.receiver ++ [c2.transfer_type % 256])))) := by
    have := (hout1.symm.trans heq).trans hout2
    simpa [List.append_assoc] using this
  obtain ⟨hpa, hrest⟩ := List.append_inj hbig (hl1.trans hl2.symm)
  obtain ⟨htin, hrest2⟩ := List.append_inj hrest (hlin1.trans hlin2.symm)
  obtain ⟨hidx1, hrest3⟩ := List.append_inj hrest2 rfl
  obtain ⟨hidx2, hrest4⟩ := List.append_inj hrest3 rfl
  obtain ⟨hrecv, htt⟩ := List.append_inj hrest4 (hlr1.trans hlr2.symm)
  have hj1lt : j1 < 256 :=
    Nat.lt_of_lt_of_le (positionOf_lt_length hj1) hlen
  have hj2lt : j2 < 256 :=
    Nat.lt_of_lt_of_le (positionOf_lt_length hj2) (htok ▸ hlen)
  have hjeq : j1 = j2 := by
    have : j1 % 256 = j2 % 256 := by simpa using hidx2
    rwa [Nat.mod_eq_of_lt hj1lt, Nat.mod_eq_of_lt hj2lt] at this
  have htout : s1.token_out = s2.token_out := by
    have g1 := positionOf_get? hj1
    have g2 := positionOf_get? hj2
    rw [← htok, ← hjeq] at g2
    rw [g1] at g2
    exact Option.some_inj.mp g2
  have htteq : c1.transfer_type = c2.transfer_type := by
    have : c1.transfer_type % 256 = c2.transfer_type % 256 := by
      simpa using htt
    rwa [Nat.mod_eq_of_lt ht1, Nat.mod_eq_of_lt ht2] at this
  exact ⟨by rw [hpa1, hpa2, hpa], htin, htout, hrecv, htteq⟩

/-- Witness for C3 at the source's test vector. -/
theorem C3_injective_bounded_witness :
    (testSwap.component.tokens = testSwap.component.tokens ∧
     testSwap.component.tokens.length ≤ 256 ∧
     testCtx.transfer_type < 256 ∧
     encode_swap testEncoder testSwap testCtx = .ok testOut) ∧
    (Address.from_str testSwap.component.id =
       Address.from_str testSwap.component.id ∧
     testSwap.token_in = testSwap.token_in ∧
     testSwap.token_out = testSwap.token_out ∧
     testCtx.receiver = testCtx.receiver ∧
     testCtx.transfer_type = testCtx.transfer_type) :=
  ⟨⟨rfl, by decide, by decide, by decide⟩,
   C3_injective_bounded testEncoder testSwap testSwap testCtx testCtx
     testOut testOut rfl (by decide) (by decide) (by decide) (by decide)
     (by decide) rfl⟩

end LiquidityParty
